import Mathlib

/-!
Verification of the static-analysis core of `advisor-code-analyzer`
(`src/app/services/code_analyzer.py`).

The Python module parses a source snippet with `ast.parse` and runs six
diagnostic checks over the tree, appending suggestion records (Findings)
to a shared list.  This file gives a shallow embedding:

* `Node` models the fragment of the Python `ast` node universe that the
  analyzer inspects.  Nodes that no check ever matches are omitted from
  the child lists (`ast.arguments`/`ast.arg` parameter objects,
  `ast.alias` objects, `ast.keyword` objects, operator objects such as
  `ast.And`/`ast.Or`, and the `ast.Load`/`ast.Store`/`ast.Del` context
  objects).  None of these is an `ast.Name`, an import statement, a
  function definition, a call, a decision-point construct, or an
  assignment, so omitting them changes no check's behaviour on the
  modelled programs.
* `walk` models `ast.walk`: breadth-first, the node itself first, then
  children in field order, realised with a fuel argument whose value
  `nodeCount n` is exactly the number of nodes reachable from `n`.
* Python's insertion-ordered `dict` is modelled by an association list
  with `dictInsert` (updating an existing key keeps its position);
  Python's `set` membership is modelled by `List.contains`.
* `analyze` takes the Syntax Tree Provider's outcome (`ast.parse`
  either returns a tree or raises `SyntaxError`) and the measured
  elapsed time as explicit parameters, since both are produced by
  external capabilities (the parser and the monotonic clock).
-/

namespace AdvisorCodeAnalyzer

/-- Expression context of an `ast.Name` node (`ast.Load` / `ast.Store` / `ast.Del`). -/
inductive Ctx where
  | load
  | store
  | del
deriving DecidableEq

/-- An `ast.alias` entry of an import statement: `name` and optional `asname`. -/
structure ImportAlias where
  name : String
  asname : Option String
deriving DecidableEq

/-- Payload of an `ast.Constant` node. -/
inductive ConstVal where
  | strVal (s : String)
  | intVal (n : Int)
  | boolVal (b : Bool)
  | noneVal
deriving DecidableEq

/-- The fragment of the Python AST inspected by `CodeAnalyzer`.
Constructor names follow the `ast` class names (`nameExpr` is `ast.Name`,
`importStmt` is `ast.Import`, `ret` is `ast.Return`, suffix `Stmt` avoids
Lean keywords).  Line numbers are the 1-based `lineno`/`end_lineno`/
`col_offset` attributes. -/
inductive Node where
  | module (body : List Node)
  | functionDef (name : String) (body : List Node) (lineno endLineno : Nat)
  | asyncFunctionDef (name : String) (body : List Node) (lineno endLineno : Nat)
  | importStmt (names : List ImportAlias) (lineno : Nat)
  | importFrom (module : Option String) (names : List ImportAlias) (lineno : Nat)
  | assign (targets : List Node) (value : Node) (lineno : Nat)
  | augAssign (target : Node) (value : Node) (lineno : Nat)
  | annAssign (target : Node) (ann : Node) (value : Option Node) (lineno : Nat)
  | forStmt (target : Node) (iter : Node) (body : List Node) (orelse : List Node) (lineno : Nat)
  | asyncFor (target : Node) (iter : Node) (body : List Node) (orelse : List Node) (lineno : Nat)
  | whileStmt (test : Node) (body : List Node) (orelse : List Node) (lineno : Nat)
  | ifStmt (test : Node) (body : List Node) (orelse : List Node) (lineno : Nat)
  | withStmt (items : List Node) (body : List Node) (lineno : Nat)
  | asyncWith (items : List Node) (body : List Node) (lineno : Nat)
  | withItem (contextExpr : Node) (optionalVars : Option Node)
  | tryStmt (body : List Node) (handlers : List Node) (orelse : List Node) (finalbody : List Node) (lineno : Nat)
  | exceptHandler (typ : Option Node) (body : List Node) (lineno : Nat)
  | exprStmt (value : Node) (lineno : Nat)
  | ret (value : Option Node) (lineno : Nat)
  | pass (lineno : Nat)
  | nameExpr (id : String) (ctx : Ctx) (lineno : Nat)
  | call (func : Node) (args : List Node) (lineno colOffset : Nat)
  | constant (value : ConstVal) (lineno : Nat)
  | boolOp (values : List Node) (lineno : Nat)
  | listComp (elt : Node) (generators : List Node) (lineno : Nat)
  | comprehension (target : Node) (iter : Node) (ifs : List Node)

/-- The children of a node in `ast.iter_child_nodes` order (the `_fields`
order of the corresponding `ast` class, restricted to the modelled fields). -/
def children : Node → List Node
  | .module body => body
  | .functionDef _ body _ _ => body
  | .asyncFunctionDef _ body _ _ => body
  | .importStmt _ _ => []
  | .importFrom _ _ _ => []
  | .assign targets value _ => targets ++ [value]
  | .augAssign target value _ => [target, value]
  | .annAssign target ann value _ => target :: ann :: value.toList
  | .forStmt target iter body orelse _ => target :: iter :: (body ++ orelse)
  | .asyncFor target iter body orelse _ => target :: iter :: (body ++ orelse)
  | .whileStmt test body orelse _ => test :: (body ++ orelse)
  | .ifStmt test body orelse _ => test :: (body ++ orelse)
  | .withStmt items body _ => items ++ body
  | .asyncWith items body _ => items ++ body
  | .withItem contextExpr optionalVars => contextExpr :: optionalVars.toList
  | .tryStmt body handlers orelse finalbody _ => body ++ handlers ++ orelse ++ finalbody
  | .exceptHandler typ body _ => typ.toList ++ body
  | .exprStmt value _ => [value]
  | .ret value _ => value.toList
  | .pass _ => []
  | .nameExpr _ _ _ => []
  | .call func args _ _ => func :: args
  | .constant _ _ => []
  | .boolOp values _ => values
  | .listComp elt generators _ => elt :: generators
  | .comprehension target iter ifs => target :: iter :: ifs

mutual

/-- Total number of (modelled) nodes reachable from a node, itself included.
For every constructor this equals `1 +` the counts of its `children`. -/
def nodeCount : Node → Nat
  | .module body => 1 + listCount body
  | .functionDef _ body _ _ => 1 + listCount body
  | .asyncFunctionDef _ body _ _ => 1 + listCount body
  | .importStmt _ _ => 1
  | .importFrom _ _ _ => 1
  | .assign targets value _ => 1 + (listCount targets + nodeCount value)
  | .augAssign target value _ => 1 + (nodeCount target + nodeCount value)
  | .annAssign target ann value _ => 1 + (nodeCount target + nodeCount ann + optCount value)
  | .forStmt target iter body orelse _ =>
      1 + (nodeCount target + nodeCount iter + listCount body + listCount orelse)
  | .asyncFor target iter body orelse _ =>
      1 + (nodeCount target + nodeCount iter + listCount body + listCount orelse)
  | .whileStmt test body orelse _ => 1 + (nodeCount test + listCount body + listCount orelse)
  | .ifStmt test body orelse _ => 1 + (nodeCount test + listCount body + listCount orelse)
  | .withStmt items body _ => 1 + (listCount items + listCount body)
  | .asyncWith items body _ => 1 + (listCount items + listCount body)
  | .withItem contextExpr optionalVars => 1 + (nodeCount contextExpr + optCount optionalVars)
  | .tryStmt body handlers orelse finalbody _ =>
      1 + (listCount body + listCount handlers + listCount orelse + listCount finalbody)
  | .exceptHandler typ body _ => 1 + (optCount typ + listCount body)
  | .exprStmt value _ => 1 + nodeCount value
  | .ret value _ => 1 + optCount value
  | .pass _ => 1
  | .nameExpr _ _ _ => 1
  | .call func args _ _ => 1 + (nodeCount func + listCount args)
  | .constant _ _ => 1
  | .boolOp values _ => 1 + listCount values
  | .listComp elt generators _ => 1 + (nodeCount elt + listCount generators)
  | .comprehension target iter ifs => 1 + (nodeCount target + nodeCount iter + listCount ifs)

/-- Sum of `nodeCount` over a list of nodes. -/
def listCount : List Node → Nat
  | [] => 0
  | n :: l => nodeCount n + listCount l

/-- Sum of `nodeCount` over an optional node. -/
def optCount : Option Node → Nat
  | none => 0
  | some n => nodeCount n

end

/-- Worklist step of `ast.walk`: pop the front node, emit it, enqueue its
children at the back.  The fuel counts remaining pops; `walk` supplies
enough fuel to drain the queue completely. -/
def walkAux : Nat → List Node → List Node
  | 0, _ => []
  | _, [] => []
  | fuel + 1, n :: q => n :: walkAux fuel (q ++ children n)

/-- Model of `ast.walk node`: breadth-first enumeration of all nodes
reachable from `node`, the node itself first. -/
def walk (n : Node) : List Node := walkAux (nodeCount n) [n]

/-- Value stored in a Finding's `metadata` mapping (the analyzer only ever
stores strings and non-negative integers there). -/
inductive MetaVal where
  | natVal (n : Nat)
  | strVal (s : String)
deriving DecidableEq

/-- One suggestion record appended by the analyzer: the dict literal
`{"rule_id": ..., "message": ..., "severity": ..., "line": ...,
"column": ..., "metadata": ...}`.  Every literal in the source carries
all six keys, so they are structure fields. -/
structure Finding where
  rule_id : String
  message : String
  severity : String
  line : Option Nat
  column : Option Nat
  metadata : List (String × MetaVal)
deriving DecidableEq

/-- Result record `AnalysisResult(suggestions, analysis_time_ms)`. -/
structure AnalysisResult where
  suggestions : List Finding
  analysis_time_ms : Nat
deriving DecidableEq

/-- The data of a Python `SyntaxError` that `analyze` reads: `msg`,
`lineno`, `offset` (the position attributes may be `None`). -/
structure SynError where
  msg : String
  lineno : Option Nat
  offset : Option Nat
deriving DecidableEq

/-- Model of the compiled regex `^[a-z_][a-z0-9_]*$` (full match on the
whole name; character classes are the ASCII ranges). -/
def SNAKE_CASE_PATTERN (s : String) : Bool :=
  match s.data with
  | [] => false
  | c :: rest =>
      (c.isLower || c = '_') && rest.all (fun d => d.isLower || d.isDigit || d = '_')

/-- Python `dict` insertion `d[k] = v` on an insertion-ordered association
list: an existing key keeps its position and gets the new value, a new key
is appended at the end. -/
def dictInsert (d : List (String × Nat)) (k : String) (v : Nat) : List (String × Nat) :=
  if d.any (fun p => p.1 == k) then d.map (fun p => if p.1 == k then (k, v) else p)
  else d ++ [(k, v)]

/-- `d.get(k)` on the association-list model of a Python dict. -/
def lookupLine : List (String × Nat) → String → Option Nat
  | [], _ => none
  | p :: d, k => if p.1 == k then some p.2 else lookupLine d k

/-- First dotted segment `s.split(".")[0]` of a name: the characters
before the first `.` (the whole string when it has no dot). -/
def firstSegment (s : String) : String := ⟨s.data.takeWhile (fun c => c ≠ '.')⟩

/-- Python `s.startswith("_")`. -/
def startsWithUnderscore (s : String) : Bool :=
  match s.data with
  | c :: _ => c == '_'
  | [] => false

/-- The `imports` dict built by `_check_imports`: for `ast.Import` the key
is `alias.asname or alias.name.split(".")[0]`, for `ast.ImportFrom` the
key is `alias.asname or alias.name`, prefixed with `module + "."` when
`module or ""` is non-empty; the value is the statement's `lineno`. -/
def imports_dict (tree : Node) : List (String × Nat) :=
  (walk tree).foldl
    (fun imports node =>
      match node with
      | .importStmt names lineno =>
          names.foldl
            (fun imports a => dictInsert imports (a.asname.getD (firstSegment a.name)) lineno)
            imports
      | .importFrom module names lineno =>
          let module := module.getD ""
          names.foldl
            (fun imports a =>
              let name := a.asname.getD a.name
              let key := if module == "" then name else module ++ "." ++ name
              dictInsert imports key lineno)
            imports
      | _ => imports)
    []

/-- The `used_names` set: ids of all `ast.Name` nodes in `ast.Load`
context anywhere in the tree (both `_check_imports` and
`_check_unused_variables` build this same set). -/
def load_names (tree : Node) : List String :=
  (walk tree).filterMap
    (fun node =>
      match node with
      | .nameExpr id .load _ => some id
      | _ => none)

/-- The `assigned` dict of `_check_unused_variables`: last assignment line
of every `ast.Name` store target whose id does not start with `_`. -/
def assigned_dict (tree : Node) : List (String × Nat) :=
  (walk tree).foldl
    (fun assigned node =>
      match node with
      | .nameExpr id .store lineno =>
          if startsWithUnderscore id then assigned else dictInsert assigned id lineno
      | _ => assigned)
    []

/-- The suggestion dict appended for an unused import. -/
def unusedImportFinding (name : String) (lineno : Nat) : Finding :=
  { rule_id := "unused_import"
    message := "Importação \x27" ++ name ++ "\x27 não é utilizada."
    severity := "warning"
    line := some lineno
    column := none
    metadata := [("symbol", .strVal name)] }

/-- The suggestion dict appended for an unused variable. -/
def unusedVariableFinding (name : String) (lineno : Nat) : Finding :=
  { rule_id := "unused_variable"
    message := "Variável \x27" ++ name ++ "\x27 é atribuída mas nunca utilizada."
    severity := "info"
    line := some lineno
    column := none
    metadata := [("symbol", .strVal name)] }

/-- The suggestion dict appended for an over-long function. -/
def longFunctionFinding (name : String) (function_length : Nat) (lineno : Nat) : Finding :=
  { rule_id := "long_function"
    message := "Função \x27" ++ name ++ "\x27 possui " ++ toString function_length
      ++ " linhas (máximo recomendado: 50)."
    severity := "warning"
    line := some lineno
    column := none
    metadata := [("length", .natVal function_length)] }

/-- The suggestion dict appended for a function with high cyclomatic complexity. -/
def highComplexityFinding (name : String) (complexity : Nat) (lineno : Nat) : Finding :=
  { rule_id := "high_cyclomatic_complexity"
    message := "Função \x27" ++ name ++ "\x27 possui complexidade ciclomática "
      ++ toString complexity ++ " (máximo recomendado: 10)."
    severity := "warning"
    line := some lineno
    column := none
    metadata := [("complexity", .natVal complexity)] }

/-- The suggestion dict appended by `add_suggestion` in `_check_naming_conventions`. -/
def namingFinding (name : String) (lineno : Nat) (rule : String) (entity : String) : Finding :=
  { rule_id := rule
    message := entity ++ " \x27" ++ name ++ "\x27 deveria seguir PEP 8 (snake_case)."
    severity := "info"
    line := some lineno
    column := none
    metadata := [("name", .strVal name)] }

/-- The suggestion dict appended for a missing docstring. -/
def missingDocstringFinding (name : String) (lineno : Nat) : Finding :=
  { rule_id := "missing_docstring"
    message := "Função \x27" ++ name ++ "\x27 deveria conter docstring."
    severity := "info"
    line := some lineno
    column := none
    metadata := [] }

/-- The suggestion dict appended for a `print` call. -/
def printFinding (lineno colOffset : Nat) : Finding :=
  { rule_id := "print_statement"
    message := "Considere utilizar logging em vez de print para saída em produção."
    severity := "info"
    line := some lineno
    column := some colOffset
    metadata := [] }

/-- The finding built in the `except SyntaxError` branch of `analyze`. -/
def synErrorFinding (exc : SynError) : Finding :=
  { rule_id := "syntax_error"
    message := "Erro de sintaxe: " ++ exc.msg
    severity := "error"
    line := exc.lineno
    column := exc.offset
    metadata := {} }

/-- `CodeAnalyzer._check_imports`: build the imports dict and the load-name
set, then append one warning per import key whose first dotted segment is
not among the load names. -/
def _check_imports (tree : Node) (suggestions : List Finding) : List Finding :=
  (imports_dict tree).foldl
    (fun suggestions p =>
      if (load_names tree).contains (firstSegment p.1) then suggestions
      else suggestions ++ [unusedImportFinding p.1 p.2])
    suggestions

/-- `CodeAnalyzer._check_unused_variables`: append one info per assigned
name (underscore-prefixed names exempt) that is never read. -/
def _check_unused_variables (tree : Node) (suggestions : List Finding) : List Finding :=
  (assigned_dict tree).foldl
    (fun suggestions p =>
      if (load_names tree).contains p.1 then suggestions
      else suggestions ++ [unusedVariableFinding p.1 p.2])
    suggestions

/-- `CodeAnalyzer._calculate_cyclomatic_complexity`: start at 1, walk the
whole subtree, add 1 for `If, For, AsyncFor, While, With, AsyncWith, Try,
BoolOp, comprehension` and for `ExceptHandler`. -/
def _calculate_cyclomatic_complexity (node : Node) : Nat :=
  (walk node).foldl
    (fun complexity child =>
      match child with
      | .ifStmt .. => complexity + 1
      | .forStmt .. => complexity + 1
      | .asyncFor .. => complexity + 1
      | .whileStmt .. => complexity + 1
      | .withStmt .. => complexity + 1
      | .asyncWith .. => complexity + 1
      | .tryStmt .. => complexity + 1
      | .boolOp .. => complexity + 1
      | .comprehension .. => complexity + 1
      | .exceptHandler .. => complexity + 1
      | _ => complexity)
    1

/-- `CodeAnalyzer._check_function_metrics`: for every `ast.FunctionDef`
(async definitions are a different `ast` class and are not matched),
append a `long_function` warning when
`end_lineno - lineno + 1 > 50` and a `high_cyclomatic_complexity`
warning when the computed complexity exceeds 10. -/
def _check_function_metrics (tree : Node) (suggestions : List Finding) : List Finding :=
  (walk tree).foldl
    (fun suggestions node =>
      match node with
      | q@(.functionDef name _ lineno endLineno) =>
          let function_length := endLineno - lineno + 1
          let suggestions :=
            if function_length > 50 then
              suggestions ++ [longFunctionFinding name function_length lineno]
            else suggestions
          let complexity := _calculate_cyclomatic_complexity q
          if complexity > 10 then
            suggestions ++ [highComplexityFinding name complexity lineno]
          else suggestions
      | _ => suggestions)
    suggestions

/-- `CodeAnalyzer._check_naming_conventions`: function definitions
(non-async only) whose name fails the snake_case pattern, and bare-`Name`
targets of plain `ast.Assign` statements (underscore-prefixed exempt)
failing the pattern. -/
def _check_naming_conventions (tree : Node) (suggestions : List Finding) : List Finding :=
  (walk tree).foldl
    (fun suggestions node =>
      match node with
      | .functionDef name _ lineno _ =>
          if SNAKE_CASE_PATTERN name then suggestions
          else suggestions ++ [namingFinding name lineno "function_naming" "Função"]
      | .assign targets _ _ =>
          targets.foldl
            (fun suggestions target =>
              match target with
              | .nameExpr id _ lineno =>
                  if startsWithUnderscore id then suggestions
                  else if SNAKE_CASE_PATTERN id then suggestions
                  else suggestions ++ [namingFinding id lineno "variable_naming" "Variável"]
              | _ => suggestions)
            suggestions
      | _ => suggestions)
    suggestions

/-- Model of `ast.get_docstring` restricted to what `_check_docstrings`
observes: the raw docstring text when the first body statement is an
expression statement holding a string constant.  (`ast.get_docstring`
additionally applies `inspect.cleandoc`; the check only tests the result
for truthiness, and `cleandoc text` is empty exactly when `text` is all
whitespace, which `isBlank` decides.) -/
def get_docstring (body : List Node) : Option String :=
  match body with
  | .exprStmt (.constant (.strVal s) _) _ :: _ => some s
  | _ => none

/-- A string is blank when every character is whitespace; `cleandoc`
maps exactly the blank strings (and only those) to the falsy `""`. -/
def isBlank (s : String) : Bool := s.data.all Char.isWhitespace

/-- `CodeAnalyzer._check_docstrings`: every function or async-function
definition whose name does not start with `_` and whose docstring is
absent or blank gets a `missing_docstring` info. -/
def _check_docstrings (tree : Node) (suggestions : List Finding) : List Finding :=
  (walk tree).foldl
    (fun suggestions node =>
      match node with
      | .functionDef name body lineno _
      | .asyncFunctionDef name body lineno _ =>
          if startsWithUnderscore name then suggestions
          else if isBlank ((get_docstring body).getD "") then
            suggestions ++ [missingDocstringFinding name lineno]
          else suggestions
      | _ => suggestions)
    suggestions

/-- `CodeAnalyzer._check_print_statements`: every `ast.Call` whose `func`
is an `ast.Name` with id `print` gets an info with the call's own
`lineno`/`col_offset`. -/
def _check_print_statements (tree : Node) (suggestions : List Finding) : List Finding :=
  (walk tree).foldl
    (fun suggestions node =>
      match node with
      | .call func _ lineno colOffset =>
          match func with
          | .nameExpr id _ _ =>
              if id == "print" then suggestions ++ [printFinding lineno colOffset]
              else suggestions
          | _ => suggestions
      | _ => suggestions)
    suggestions

/-- `CodeAnalyzer.analyze`: on a `SyntaxError` from the provider, return a
single `syntax_error` finding; otherwise run the six checks in their
fixed order, each extending the shared suggestion list.  The parse
outcome and the measured elapsed milliseconds are inputs because the
parser and the clock are external capabilities. -/
def analyze (parsed : Except SynError Node) (elapsed_ms : Nat) : AnalysisResult :=
  match parsed with
  | .error exc =>
      { suggestions := [synErrorFinding exc], analysis_time_ms := elapsed_ms }
  | .ok tree =>
      let suggestions : List Finding := []
      let suggestions := _check_imports tree suggestions
      let suggestions := _check_unused_variables tree suggestions
      let suggestions := _check_function_metrics tree suggestions
      let suggestions := _check_naming_conventions tree suggestions
      let suggestions := _check_docstrings tree suggestions
      let suggestions := _check_print_statements tree suggestions
      { suggestions := suggestions, analysis_time_ms := elapsed_ms }


/-! ## Specification-side characterizations

Each `spec_...` definition re-states one rule the way the specification
describes it (one emission decision per recorded key / per walked node),
to be proved equal to the accumulating source embedding above. -/

/-- Modelled from the spec: the Unused Import rule emits one warning per
recorded import key whose first dotted segment is absent from the
referenced-name set. -/
def spec_unused_import_findings (tree : Node) : List Finding :=
  (imports_dict tree).flatMap
    (fun p =>
      if (load_names tree).contains (firstSegment p.1) then []
      else [unusedImportFinding p.1 p.2])

/-- Modelled from the spec: the Unused Variable rule emits one info per
assigned name absent from the referenced-name set. -/
def spec_unused_variable_findings (tree : Node) : List Finding :=
  (assigned_dict tree).flatMap
    (fun p =>
      if (load_names tree).contains p.1 then []
      else [unusedVariableFinding p.1 p.2])

/-- The decision-point constructs of the cyclomatic-complexity spec:
conditional/loop/with/try constructs, boolean-operator nodes,
comprehension clauses, exception handlers. -/
def isDecisionPoint (n : Node) : Bool :=
  match n with
  | .ifStmt .. => true
  | .forStmt .. => true
  | .asyncFor .. => true
  | .whileStmt .. => true
  | .withStmt .. => true
  | .asyncWith .. => true
  | .tryStmt .. => true
  | .boolOp .. => true
  | .comprehension .. => true
  | .exceptHandler .. => true
  | _ => false

/-- Modelled from the spec: cyclomatic complexity is 1 plus the number of
decision points anywhere in the full subtree. -/
def spec_complexity (n : Node) : Nat := 1 + (walk n).countP isDecisionPoint

/-- Modelled from the spec: the per-node emission of the Function Metrics
rule.  A non-async function definition emits `long_function` exactly when
`end_line - start_line + 1 > 50` and `high_cyclomatic_complexity` exactly
when its complexity exceeds 10; every other node (async definitions
included) emits nothing. -/
def spec_function_metrics_at (n : Node) : List Finding :=
  match n with
  | q@(.functionDef name _ lineno endLineno) =>
      (if endLineno - lineno + 1 > 50 then
        [longFunctionFinding name (endLineno - lineno + 1) lineno]
      else [])
      ++ (if spec_complexity q > 10 then
        [highComplexityFinding name (spec_complexity q) lineno]
      else [])
  | _ => []

/-- The Function Metrics rule's output as one emission per walked node. -/
def spec_function_metrics_findings (tree : Node) : List Finding :=
  (walk tree).flatMap spec_function_metrics_at

/-- Modelled from the spec: the per-node emission of the Naming Convention
rule.  Only non-async function definitions and bare-name targets of plain
assignment statements are matched. -/
def spec_naming_at (n : Node) : List Finding :=
  match n with
  | .functionDef name _ lineno _ =>
      if SNAKE_CASE_PATTERN name then []
      else [namingFinding name lineno "function_naming" "Função"]
  | .assign targets _ _ =>
      targets.flatMap
        (fun target =>
          match target with
          | .nameExpr id _ lineno =>
              if startsWithUnderscore id || SNAKE_CASE_PATTERN id then []
              else [namingFinding id lineno "variable_naming" "Variável"]
          | _ => [])
  | _ => []

/-- The Naming Convention rule's output as one emission per walked node. -/
def spec_naming_findings (tree : Node) : List Finding :=
  (walk tree).flatMap spec_naming_at

/-- Modelled from the spec: the per-node emission of the Docstring rule. -/
def spec_docstring_at (n : Node) : List Finding :=
  match n with
  | .functionDef name body lineno _ =>
      if startsWithUnderscore name then []
      else if isBlank ((get_docstring body).getD "") then
        [missingDocstringFinding name lineno]
      else []
  | .asyncFunctionDef name body lineno _ =>
      if startsWithUnderscore name then []
      else if isBlank ((get_docstring body).getD "") then
        [missingDocstringFinding name lineno]
      else []
  | _ => []

/-- The Docstring rule's output as one emission per walked node. -/
def spec_docstring_findings (tree : Node) : List Finding :=
  (walk tree).flatMap spec_docstring_at

/-- Modelled from the spec: the per-node emission of the Print Statement
rule — one info per direct call whose callee is the bare identifier
`print`. -/
def spec_print_at (n : Node) : List Finding :=
  match n with
  | .call (.nameExpr id _ _) _ lineno colOffset =>
      if id == "print" then [printFinding lineno colOffset] else []
  | _ => []

/-- The Print Statement rule's output as one emission per walked node. -/
def spec_print_findings (tree : Node) : List Finding :=
  (walk tree).flatMap spec_print_at


/-- Concrete parse outcomes and trees used in closed statements below. -/
def parse_of_empty_source : Except SynError Node := .ok (.module [])

/-- A module whose only statement is a bare `print()` call. -/
def printCallTree : Node :=
  .module [.exprStmt (.call (.nameExpr "print" .load 1) [] 1 0) 1]

/-- A module binding pattern-violating names only through a `for` target,
a `with` item, an augmented assignment, an annotated assignment and a
comprehension target — never through a plain assignment statement. -/
def nonAssignBindersTree : Node :=
  .module
    [ .forStmt (.nameExpr "LoopVar" .store 1) (.nameExpr "items" .load 1) [.pass 2] [] 1,
      .withStmt
        [.withItem (.call (.nameExpr "open" .load 3) [] 3 5)
          (some (.nameExpr "FileHandle" .store 3))]
        [.pass 4] 3,
      .augAssign (.nameExpr "Counter" .store 5) (.constant (.intVal 1) 5) 5,
      .annAssign (.nameExpr "Total" .store 6) (.nameExpr "int" .load 6)
        (some (.constant (.intVal 0) 6)) 6,
      .exprStmt
        (.listComp (.nameExpr "Y" .load 7)
          [.comprehension (.nameExpr "Y" .store 7) (.nameExpr "items" .load 7) []] 7) 7 ]

/-- A module with one async function definition whose name violates the
snake_case pattern. -/
def asyncBadNameTree : Node :=
  .module [.asyncFunctionDef "BadAsyncName" [.pass 2] 1 2]

/-- A module exercising all six rule blocks at once: an unused import, a
camel-case 59-line function without docstring that assigns an unused
camel-case variable and calls `print`. -/
def allRulesTree : Node :=
  .module
    [ .importStmt [⟨"os", none⟩] 1,
      .functionDef "CamelCase"
        [ .assign [.nameExpr "BadVar" .store 3] (.constant (.intVal 10) 3) 3,
          .exprStmt (.call (.nameExpr "print" .load 4) [] 4 4) 4 ] 2 60 ]

/-- A module importing `x` from module `m` under the alias `y`. -/
def aliasedFromImportTree : Node :=
  .module [.importFrom (some "m") [⟨"x", some "y"⟩] 1]

/-! ## Helper lemmas -/

/-- A fold that appends `g a` for each element equals the initial list
followed by the flattened emissions. -/
theorem foldl_emits {α β : Type} (g : α → List β) (step : List β → α → List β)
    (h : ∀ s a, step s a = s ++ g a) :
    ∀ (l : List α) (s : List β), l.foldl step s = s ++ l.flatMap g := by
  intro l
  induction l with
  | nil => intro s; simp
  | cons a l ih => intro s; simp [List.foldl_cons, h, ih]

/-- A fold that adds `f a` for each element equals the initial value plus
the sum of the per-element contributions. -/
theorem foldl_tally {α : Type} (f : α → Nat) (step : Nat → α → Nat)
    (h : ∀ c a, step c a = c + f a) :
    ∀ (l : List α) (c : Nat), l.foldl step c = c + (l.map f).sum := by
  intro l
  induction l with
  | nil => intro c; simp
  | cons a l ih => intro c; simp [List.foldl_cons, h, ih, Nat.add_assoc]

/-- Summing `1` over the elements satisfying a predicate counts them. -/
theorem sum_ite_one_eq_countP {α : Type} (p : α → Bool) :
    ∀ l : List α, (l.map (fun a => if p a then 1 else 0)).sum = l.countP p := by
  intro l
  induction l with
  | nil => rfl
  | cons a l ih => cases h : p a <;> simp [List.countP_cons, h, ih, Nat.add_comm]

/-- A non-empty left factor keeps a string append non-empty. -/
theorem append_ne_empty_left (a b : String) (h : a ≠ "") : a ++ b ≠ "" := by
  intro hab
  apply h
  have hd : a.data ++ b.data = [] := by
    have hc := congrArg String.data hab
    rw [String.data_append] at hc
    exact hc
  exact String.ext (List.append_eq_nil.mp hd).1

/-- `_check_imports` appends exactly the spec-side unused-import findings. -/
theorem check_imports_eq (tree : Node) (s : List Finding) :
    _check_imports tree s = s ++ spec_unused_import_findings tree := by
  unfold _check_imports spec_unused_import_findings
  refine foldl_emits _ _ ?_ _ _
  intro s p
  cases hc : (load_names tree).contains (firstSegment p.1) <;> simp [hc]

/-- `_check_unused_variables` appends exactly the spec-side unused-variable findings. -/
theorem check_unused_variables_eq (tree : Node) (s : List Finding) :
    _check_unused_variables tree s = s ++ spec_unused_variable_findings tree := by
  unfold _check_unused_variables spec_unused_variable_findings
  refine foldl_emits _ _ ?_ _ _
  intro s p
  cases hc : (load_names tree).contains p.1 <;> simp [hc]

/-- The accumulating complexity computation equals the spec-side count. -/
theorem calc_complexity_eq (n : Node) :
    _calculate_cyclomatic_complexity n = spec_complexity n := by
  unfold _calculate_cyclomatic_complexity spec_complexity
  rw [foldl_tally (fun a => if isDecisionPoint a then 1 else 0) _
    (fun c a => by cases a <;> simp [isDecisionPoint])]
  rw [sum_ite_one_eq_countP]

/-- `_check_function_metrics` appends exactly the spec-side metric findings. -/
theorem check_function_metrics_eq (tree : Node) (s : List Finding) :
    _check_function_metrics tree s = s ++ spec_function_metrics_findings tree := by
  unfold _check_function_metrics spec_function_metrics_findings
  refine foldl_emits _ _ ?_ _ _
  intro s n
  cases n <;> simp only [spec_function_metrics_at] <;> try simp
  case functionDef name body ln e =>
    rw [calc_complexity_eq]
    split_ifs <;> simp

/-- `_check_naming_conventions` appends exactly the spec-side naming findings. -/
theorem check_naming_eq (tree : Node) (s : List Finding) :
    _check_naming_conventions tree s = s ++ spec_naming_findings tree := by
  unfold _check_naming_conventions spec_naming_findings
  refine foldl_emits _ _ ?_ _ _
  intro s n
  cases n <;> simp only [spec_naming_at] <;> try simp
  case functionDef name body ln e =>
    cases h : SNAKE_CASE_PATTERN name <;> simp [h]
  case assign targets value ln =>
    refine foldl_emits _ _ ?_ _ _
    intro s target
    cases target <;> try simp
    case nameExpr id c l =>
      cases hu : startsWithUnderscore id <;> cases hs : SNAKE_CASE_PATTERN id <;>
        simp [hu, hs]

/-- `_check_docstrings` appends exactly the spec-side docstring findings. -/
theorem check_docstrings_eq (tree : Node) (s : List Finding) :
    _check_docstrings tree s = s ++ spec_docstring_findings tree := by
  unfold _check_docstrings spec_docstring_findings
  refine foldl_emits _ _ ?_ _ _
  intro s n
  cases n <;> simp only [spec_docstring_at] <;> try simp
  case functionDef name body ln e =>
    cases hu : startsWithUnderscore name <;>
      cases hb : isBlank ((get_docstring body).getD "") <;> simp [hu, hb]
  case asyncFunctionDef name body ln e =>
    cases hu : startsWithUnderscore name <;>
      cases hb : isBlank ((get_docstring body).getD "") <;> simp [hu, hb]

/-- `_check_print_statements` appends exactly the spec-side print findings. -/
theorem check_print_eq (tree : Node) (s : List Finding) :
    _check_print_statements tree s = s ++ spec_print_findings tree := by
  unfold _check_print_statements spec_print_findings
  refine foldl_emits _ _ ?_ _ _
  intro s n
  cases n <;> simp only [spec_print_at] <;> try simp
  case call func args ln col =>
    cases func <;> try simp
    case nameExpr id c l =>
      by_cases h : id = "print" <;> simp [h]

/-- On a successful parse, the suggestion list is the concatenation of the
six rules' outputs in registry order. -/
theorem analyze_ok_suggestions (tree : Node) (t : Nat) :
    (analyze (.ok tree) t).suggestions =
      spec_unused_import_findings tree ++ spec_unused_variable_findings tree
        ++ spec_function_metrics_findings tree ++ spec_naming_findings tree
        ++ spec_docstring_findings tree ++ spec_print_findings tree := by
  simp [analyze, check_imports_eq, check_unused_variables_eq, check_function_metrics_eq,
    check_naming_eq, check_docstrings_eq, check_print_eq]


/-- Every unused-import finding is a well-formed warning. -/
theorem spec_import_wf {tree : Node} {f : Finding}
    (h : f ∈ spec_unused_import_findings tree) :
    f.rule_id = "unused_import" ∧ f.severity = "warning" ∧ f.message ≠ "" := by
  rcases List.mem_flatMap.mp h with ⟨p, -, hf⟩
  rw [apply_ite (f ∈ ·)] at hf
  split at hf <;> simp at hf
  subst hf
  exact ⟨rfl, rfl, append_ne_empty_left _ _ (append_ne_empty_left _ _ (by decide))⟩

/-- Every unused-variable finding is a well-formed info. -/
theorem spec_variable_wf {tree : Node} {f : Finding}
    (h : f ∈ spec_unused_variable_findings tree) :
    f.rule_id = "unused_variable" ∧ f.severity = "info" ∧ f.message ≠ "" := by
  rcases List.mem_flatMap.mp h with ⟨p, -, hf⟩
  rw [apply_ite (f ∈ ·)] at hf
  split at hf <;> simp at hf
  subst hf
  exact ⟨rfl, rfl, append_ne_empty_left _ _ (append_ne_empty_left _ _ (by decide))⟩

/-- Every function-metrics finding is a well-formed warning with one of the
two metric rule ids. -/
theorem spec_metrics_wf {tree : Node} {f : Finding}
    (h : f ∈ spec_function_metrics_findings tree) :
    (f.rule_id = "long_function" ∨ f.rule_id = "high_cyclomatic_complexity")
    ∧ f.severity = "warning" ∧ f.message ≠ "" := by
  rcases List.mem_flatMap.mp h with ⟨n, -, hf⟩
  cases n <;> simp [spec_function_metrics_at] at hf
  rcases hf with ⟨-, rfl⟩ | ⟨-, rfl⟩
  · exact ⟨Or.inl rfl, rfl,
      append_ne_empty_left _ _ (append_ne_empty_left _ _
        (append_ne_empty_left _ _ (append_ne_empty_left _ _ (by decide))))⟩
  · exact ⟨Or.inr rfl, rfl,
      append_ne_empty_left _ _ (append_ne_empty_left _ _
        (append_ne_empty_left _ _ (append_ne_empty_left _ _ (by decide))))⟩

/-- Every naming finding is a well-formed info with one of the two naming
rule ids. -/
theorem spec_naming_wf {tree : Node} {f : Finding}
    (h : f ∈ spec_naming_findings tree) :
    (f.rule_id = "function_naming" ∨ f.rule_id = "variable_naming")
    ∧ f.severity = "info" ∧ f.message ≠ "" := by
  rcases List.mem_flatMap.mp h with ⟨n, -, hf⟩
  cases n <;> simp [spec_naming_at] at hf
  case functionDef name body lineno endLineno =>
    rcases hf with ⟨-, rfl⟩
    exact ⟨Or.inl rfl, rfl,
      append_ne_empty_left _ _ (append_ne_empty_left _ _
        (append_ne_empty_left _ _ (by decide)))⟩
  case assign targets value lineno =>
    rcases hf with ⟨target, -, hft⟩
    cases target <;> simp at hft
    rcases hft with ⟨-, -, rfl⟩
    exact ⟨Or.inr rfl, rfl,
      append_ne_empty_left _ _ (append_ne_empty_left _ _
        (append_ne_empty_left _ _ (by decide)))⟩

/-- Every docstring finding is a well-formed info. -/
theorem spec_docstring_wf {tree : Node} {f : Finding}
    (h : f ∈ spec_docstring_findings tree) :
    f.rule_id = "missing_docstring" ∧ f.severity = "info" ∧ f.message ≠ "" := by
  rcases List.mem_flatMap.mp h with ⟨n, -, hf⟩
  cases n <;> simp [spec_docstring_at] at hf <;>
    · rcases hf with ⟨-, -, rfl⟩
      exact ⟨rfl, rfl, append_ne_empty_left _ _ (append_ne_empty_left _ _ (by decide))⟩

/-- Every print finding is a well-formed info. -/
theorem spec_print_wf {tree : Node} {f : Finding}
    (h : f ∈ spec_print_findings tree) :
    f.rule_id = "print_statement" ∧ f.severity = "info" ∧ f.message ≠ "" := by
  rcases List.mem_flatMap.mp h with ⟨n, -, hf⟩
  cases n <;> simp [spec_print_at] at hf
  case call func args lineno colOffset =>
    cases func <;> simp at hf
    rcases hf with ⟨-, rfl⟩
    refine ⟨rfl, rfl, ?_⟩
    show "Considere utilizar logging em vez de print para saída em produção." ≠ ""
    decide

/-- Looking up an untouched key through a keyed map-update is unchanged. -/
theorem lookupLine_map_update (d : List (String × Nat)) (k k' : String) (v : Nat)
    (h : ¬ k' = k) :
    lookupLine (d.map (fun p => if p.1 == k then (k, v) else p)) k' = lookupLine d k' := by
  induction d with
  | nil => rfl
  | cons p d ih =>
      simp only [beq_iff_eq] at ih ⊢
      by_cases hp : p.1 = k
      · have hkk' : ¬ k = k' := fun hh => h hh.symm
        have hpk' : ¬ p.1 = k' := by rw [hp]; exact hkk'
        simp [lookupLine, beq_iff_eq, hp, hkk', hpk', ih]
      · simp [lookupLine, beq_iff_eq, hp, ih]

/-- Looking up the updated key through a keyed map-update yields the new
value exactly when the key was present. -/
theorem lookupLine_map_update_self (d : List (String × Nat)) (k : String) (v : Nat) :
    lookupLine (d.map (fun p => if p.1 == k then (k, v) else p)) k
      = if d.any (fun p => p.1 == k) then some v else none := by
  induction d with
  | nil => rfl
  | cons p d ih =>
      simp only [beq_iff_eq] at ih ⊢
      by_cases hp : p.1 = k
      · simp [lookupLine, beq_iff_eq, hp, ih]
      · have hb : (p.1 == k) = false := by simp [hp]
        simp only [List.any_cons, hb, Bool.false_or]
        simp [lookupLine, beq_iff_eq, hp, ih]

/-- Lookup distributes over append, preferring the left list. -/
theorem lookupLine_append (d e : List (String × Nat)) (k : String) :
    lookupLine (d ++ e) k
      = match lookupLine d k with
        | some x => some x
        | none => lookupLine e k := by
  induction d with
  | nil => rfl
  | cons p d ih =>
      by_cases hp : p.1 = k <;> simp [lookupLine, beq_iff_eq, hp, ih]

/-- A missing key looks up to `none`. -/
theorem lookupLine_eq_none (d : List (String × Nat)) (k : String)
    (h : ¬ d.any (fun p => p.1 == k)) :
    lookupLine d k = none := by
  induction d with
  | nil => rfl
  | cons p d ih =>
      simp [List.any_cons] at h
      simp [lookupLine, h.1, ih (by simpa using h.2)]

/-- Python-dict update semantics: after `d[k] = v` the key `k` maps to
`v` and every other key is unchanged. -/
theorem lookupLine_dictInsert (d : List (String × Nat)) (k k' : String) (v : Nat) :
    lookupLine (dictInsert d k v) k' = if k' == k then some v else lookupLine d k' := by
  by_cases hmem : d.any (fun p => p.1 == k)
  · by_cases hk : k' = k
    · subst hk
      simp only [dictInsert, if_pos hmem, lookupLine_map_update_self, if_pos hmem]
      simp
    · simp only [dictInsert, if_pos hmem, lookupLine_map_update d k k' v hk]
      simp [hk]
  · by_cases hk : k' = k
    · subst hk
      simp only [dictInsert, if_neg hmem, lookupLine_append, lookupLine_eq_none d k' hmem]
      simp [lookupLine]
    · simp only [dictInsert, if_neg hmem, lookupLine_append]
      have hkk : ¬ k = k' := fun hh => hk hh.symm
      cases hl : lookupLine d k' <;> simp [lookupLine, beq_iff_eq, hk, hkk, hl]

/-- A keyed map-update leaves the key sequence unchanged. -/
theorem keys_map_update (d : List (String × Nat)) (k : String) (v : Nat) :
    (d.map (fun p => if p.1 == k then (k, v) else p)).map Prod.fst = d.map Prod.fst := by
  induction d with
  | nil => rfl
  | cons p d ih =>
      simp only [List.map_cons, ih]
      by_cases hp : p.1 = k <;> simp [hp]

/-- Python-dict key semantics: updating an existing key keeps the key
sequence; a fresh key is appended at the end. -/
theorem keys_dictInsert (d : List (String × Nat)) (k : String) (v : Nat) :
    (dictInsert d k v).map Prod.fst
      = if d.any (fun p => p.1 == k) then d.map Prod.fst else d.map Prod.fst ++ [k] := by
  by_cases hmem : d.any (fun p => p.1 == k) <;>
    simp [dictInsert, hmem, keys_map_update]
  intro a b _
  by_cases ha : a = k <;> simp [ha]


/-! ## Claim theorems -/

/-- Claim C1: on every provider `SyntaxError`, `analyze` returns exactly one
finding, with rule id `syntax_error` and severity `error`, line and column
copied from the parse error, and no diagnostic rule contributes anything
else. -/
theorem claim_C1_syntax_error_short_circuit (exc : SynError) (t : Nat) :
    (analyze (.error exc) t).suggestions = [synErrorFinding exc]
    ∧ (synErrorFinding exc).rule_id = "syntax_error"
    ∧ (synErrorFinding exc).severity = "error"
    ∧ (synErrorFinding exc).line = exc.lineno
    ∧ (synErrorFinding exc).column = exc.offset :=
  ⟨rfl, rfl, rfl, rfl, rfl⟩

/-- Claim C2: the function-metrics check emits, per walked node, a
`long_function` warning (with `metadata.length`) exactly when
`end_line - start_line + 1 > 50`, and a `high_cyclomatic_complexity`
warning (with `metadata.complexity`) exactly when the complexity —
1 plus one per decision-point construct anywhere in the full subtree —
strictly exceeds 10; async function definitions emit neither. -/
theorem claim_C2_function_metrics (tree : Node) (s : List Finding)
    (name : String) (body : List Node) (lineno endLineno : Nat) :
    _check_function_metrics tree s = s ++ (walk tree).flatMap spec_function_metrics_at
    ∧ spec_function_metrics_at (.functionDef name body lineno endLineno)
        = (if endLineno - lineno + 1 > 50 then
            [longFunctionFinding name (endLineno - lineno + 1) lineno]
          else [])
          ++ (if spec_complexity (.functionDef name body lineno endLineno) > 10 then
            [highComplexityFinding name
              (spec_complexity (.functionDef name body lineno endLineno)) lineno]
          else [])
    ∧ spec_function_metrics_at (.asyncFunctionDef name body lineno endLineno) = []
    ∧ (∀ n : Node, _calculate_cyclomatic_complexity n = 1 + (walk n).countP isDecisionPoint)
    ∧ (longFunctionFinding name (endLineno - lineno + 1) lineno).rule_id = "long_function"
    ∧ (longFunctionFinding name (endLineno - lineno + 1) lineno).severity = "warning"
    ∧ (longFunctionFinding name (endLineno - lineno + 1) lineno).metadata
        = [("length", MetaVal.natVal (endLineno - lineno + 1))]
    ∧ (highComplexityFinding name
        (spec_complexity (.functionDef name body lineno endLineno)) lineno).rule_id
        = "high_cyclomatic_complexity"
    ∧ (highComplexityFinding name
        (spec_complexity (.functionDef name body lineno endLineno)) lineno).severity
        = "warning"
    ∧ (highComplexityFinding name
        (spec_complexity (.functionDef name body lineno endLineno)) lineno).metadata
        = [("complexity",
            MetaVal.natVal (spec_complexity (.functionDef name body lineno endLineno)))] :=
  ⟨check_function_metrics_eq tree s, rfl, rfl, fun n => calc_complexity_eq n,
    rfl, rfl, rfl, rfl, rfl, rfl⟩

/-- Claim C3 counterexample: for `from m import x as y` the code records
the key `m.y` — module-prefixed even though an alias is present — and the
emitted metadata symbol is `m.y`, not the bare alias `y` that the claim's
key rule ("the alias if present") prescribes. -/
theorem claim_C3_counterexample :
    imports_dict aliasedFromImportTree = [("m.y", 1)]
    ∧ (_check_imports aliasedFromImportTree []).map Finding.metadata
        = [[("symbol", MetaVal.strVal "m.y")]]
    ∧ ∀ f ∈ _check_imports aliasedFromImportTree [],
        f.metadata ≠ [("symbol", MetaVal.strVal "y")] := by decide

/-- Claim C3 (amended): the unused-import check records one key per
imported binding — for plain `import` the alias if present else the first
dotted segment; for `from module import x` the key `module.n` (with `n`
the alias if present else `x`) when the module is non-empty, else `n` —
mapped to the import's line, a later import of the same key overwriting
the earlier line while keeping the key's position; a warning with
`metadata.symbol = key` is emitted exactly for the recorded keys whose
first dotted segment is absent from the load-context name set. -/
theorem claim_C3_unused_imports (tree : Node) (s : List Finding)
    (d : List (String × Nat)) (k k' : String) (v : Nat) :
    _check_imports tree s
      = s ++ (imports_dict tree).flatMap (fun p =>
          if (load_names tree).contains (firstSegment p.1) then []
          else [unusedImportFinding p.1 p.2])
    ∧ lookupLine (dictInsert d k v) k' = (if k' == k then some v else lookupLine d k')
    ∧ (dictInsert d k v).map Prod.fst
        = (if d.any (fun p => p.1 == k) then d.map Prod.fst else d.map Prod.fst ++ [k])
    ∧ (unusedImportFinding k v).rule_id = "unused_import"
    ∧ (unusedImportFinding k v).severity = "warning"
    ∧ (unusedImportFinding k v).metadata = [("symbol", MetaVal.strVal k)]
    ∧ (unusedImportFinding k v).line = some v :=
  ⟨check_imports_eq tree s, lookupLine_dictInsert d k k' v, keys_dictInsert d k v,
    rfl, rfl, rfl, rfl⟩

/-- Claim C4: a default `analyze` run on a parsed tree produces exactly the
six rules' outputs concatenated in the fixed canonical order — unused
import, unused variable, function metrics, naming convention, docstring,
print statement — so each rule's findings form one contiguous block, and
each block carries only that rule's ids. -/
theorem claim_C4_registry_order (tree : Node) (t : Nat) :
    (analyze (.ok tree) t).suggestions
      = _check_imports tree [] ++ _check_unused_variables tree []
        ++ _check_function_metrics tree [] ++ _check_naming_conventions tree []
        ++ _check_docstrings tree [] ++ _check_print_statements tree []
    ∧ (∀ f ∈ _check_imports tree [], f.rule_id = "unused_import")
    ∧ (∀ f ∈ _check_unused_variables tree [], f.rule_id = "unused_variable")
    ∧ (∀ f ∈ _check_function_metrics tree [],
        f.rule_id = "long_function" ∨ f.rule_id = "high_cyclomatic_complexity")
    ∧ (∀ f ∈ _check_naming_conventions tree [],
        f.rule_id = "function_naming" ∨ f.rule_id = "variable_naming")
    ∧ (∀ f ∈ _check_docstrings tree [], f.rule_id = "missing_docstring")
    ∧ (∀ f ∈ _check_print_statements tree [], f.rule_id = "print_statement") := by
  refine ⟨?_, ?_, ?_, ?_, ?_, ?_, ?_⟩
  · rw [analyze_ok_suggestions, check_imports_eq, check_unused_variables_eq,
      check_function_metrics_eq, check_naming_eq, check_docstrings_eq, check_print_eq]
    simp
  · intro f hf
    rw [check_imports_eq, List.nil_append] at hf
    exact (spec_import_wf hf).1
  · intro f hf
    rw [check_unused_variables_eq, List.nil_append] at hf
    exact (spec_variable_wf hf).1
  · intro f hf
    rw [check_function_metrics_eq, List.nil_append] at hf
    exact (spec_metrics_wf hf).1
  · intro f hf
    rw [check_naming_eq, List.nil_append] at hf
    exact (spec_naming_wf hf).1
  · intro f hf
    rw [check_docstrings_eq, List.nil_append] at hf
    exact (spec_docstring_wf hf).1
  · intro f hf
    rw [check_print_eq, List.nil_append] at hf
    exact (spec_print_wf hf).1

/-- Witness for claim C4 at `allRulesTree`: each block's predicate holds of
a concrete finding produced by the corresponding check. -/
theorem claim_C4_registry_order_witness :
    (unusedImportFinding "os" 1).rule_id = "unused_import"
    ∧ (unusedVariableFinding "BadVar" 3).rule_id = "unused_variable"
    ∧ ((longFunctionFinding "CamelCase" 59 2).rule_id = "long_function"
        ∨ (longFunctionFinding "CamelCase" 59 2).rule_id = "high_cyclomatic_complexity")
    ∧ ((namingFinding "CamelCase" 2 "function_naming" "Função").rule_id = "function_naming"
        ∨ (namingFinding "CamelCase" 2 "function_naming" "Função").rule_id
            = "variable_naming")
    ∧ (missingDocstringFinding "CamelCase" 2).rule_id = "missing_docstring"
    ∧ (printFinding 4 4).rule_id = "print_statement" :=
  ⟨(claim_C4_registry_order allRulesTree 0).2.1 _ (by decide),
    (claim_C4_registry_order allRulesTree 0).2.2.1 _ (by decide),
    (claim_C4_registry_order allRulesTree 0).2.2.2.1 _ (by decide),
    (claim_C4_registry_order allRulesTree 0).2.2.2.2.1 _ (by decide),
    (claim_C4_registry_order allRulesTree 0).2.2.2.2.2.1 _ (by decide),
    (claim_C4_registry_order allRulesTree 0).2.2.2.2.2.2 _ (by decide)⟩

/-- Claim C5 counterexample: the empty source parses successfully
(`ast.parse ""` yields an empty module), and `analyze` returns a normal
`AnalysisResult` with zero findings — there is no fail-fast validation
error before parsing. -/
theorem claim_C5_counterexample :
    analyze parse_of_empty_source 0
      = { suggestions := [], analysis_time_ms := 0 } := by decide

/-- Claim C5 (amended): `analyze` performs no input validation at all; the
empty source is handed to the parser, which succeeds with an empty module,
and the run completes normally with an empty findings list. -/
theorem claim_C5_no_input_validation (t : Nat) :
    analyze parse_of_empty_source t = { suggestions := [], analysis_time_ms := t } := rfl

/-- Claim C6 counterexample: the message of a print-statement finding is
the Portuguese string from the source, not the English sentence the claim
prescribes. -/
theorem claim_C6_counterexample :
    (_check_print_statements printCallTree []).map Finding.message
      = ["Considere utilizar logging em vez de print para saída em produção."]
    ∧ (_check_print_statements printCallTree []).map Finding.message
      ≠ ["Consider using logging instead of print for production output."] := by decide

/-- Claim C6 (amended): every direct call whose callee is the bare
identifier `print` emits an info finding with rule id `print_statement`,
message exactly `"Considere utilizar logging em vez de print para saída
em produção."`, and line/column taken from the call node itself. -/
theorem claim_C6_print_rule (tree : Node) (s : List Finding)
    (id : String) (c : Ctx) (idLine : Nat) (args : List Node) (lineno colOffset : Nat) :
    _check_print_statements tree s = s ++ (walk tree).flatMap spec_print_at
    ∧ spec_print_at (.call (.nameExpr id c idLine) args lineno colOffset)
        = (if id == "print" then [printFinding lineno colOffset] else [])
    ∧ (printFinding lineno colOffset).rule_id = "print_statement"
    ∧ (printFinding lineno colOffset).severity = "info"
    ∧ (printFinding lineno colOffset).message
        = "Considere utilizar logging em vez de print para saída em produção."
    ∧ (printFinding lineno colOffset).line = some lineno
    ∧ (printFinding lineno colOffset).column = some colOffset :=
  ⟨check_print_eq tree s, rfl, rfl, rfl, rfl, rfl, rfl⟩

/-- Claim C7: two `analyze` runs on the same parse outcome return the same
findings in the same order, whatever the clock reports; only
`analysis_time_ms` reflects the clock input. -/
theorem claim_C7_deterministic_findings (parsed : Except SynError Node) (t1 t2 : Nat) :
    (analyze parsed t1).suggestions = (analyze parsed t2).suggestions
    ∧ (analyze parsed t1).analysis_time_ms = t1 := by
  cases parsed <;> exact ⟨rfl, rfl⟩

/-- Claim C8: every finding appended on any path of `analyze` has rule id
and message present (non-empty) and a severity among exactly `info`,
`warning`, `error`. -/
theorem claim_C8_findings_wellformed (parsed : Except SynError Node) (t : Nat) :
    ∀ f ∈ (analyze parsed t).suggestions,
      (f.severity = "info" ∨ f.severity = "warning" ∨ f.severity = "error")
      ∧ f.rule_id ≠ "" ∧ f.message ≠ "" := by
  intro f hf
  cases parsed with
  | error exc =>
      simp [analyze] at hf
      subst hf
      refine ⟨Or.inr (Or.inr rfl), ?_, ?_⟩
      · show ("syntax_error" : String) ≠ ""
        decide
      · exact append_ne_empty_left _ _ (by decide)
  | ok tree =>
      rw [analyze_ok_suggestions] at hf
      simp only [List.mem_append] at hf
      rcases hf with ((((hf | hf) | hf) | hf) | hf) | hf
      · obtain ⟨h1, h2, h3⟩ := spec_import_wf hf
        exact ⟨Or.inr (Or.inl h2), by rw [h1]; decide, h3⟩
      · obtain ⟨h1, h2, h3⟩ := spec_variable_wf hf
        exact ⟨Or.inl h2, by rw [h1]; decide, h3⟩
      · obtain ⟨h1, h2, h3⟩ := spec_metrics_wf hf
        exact ⟨Or.inr (Or.inl h2), by rcases h1 with h1 | h1 <;> rw [h1] <;> decide, h3⟩
      · obtain ⟨h1, h2, h3⟩ := spec_naming_wf hf
        exact ⟨Or.inl h2, by rcases h1 with h1 | h1 <;> rw [h1] <;> decide, h3⟩
      · obtain ⟨h1, h2, h3⟩ := spec_docstring_wf hf
        exact ⟨Or.inl h2, by rw [h1]; decide, h3⟩
      · obtain ⟨h1, h2, h3⟩ := spec_print_wf hf
        exact ⟨Or.inl h2, by rw [h1]; decide, h3⟩

/-- Witness for claim C8 at the syntax-error path. -/
theorem claim_C8_findings_wellformed_witness :
    ((synErrorFinding ⟨"invalid syntax", some 1, some 1⟩).severity = "info"
      ∨ (synErrorFinding ⟨"invalid syntax", some 1, some 1⟩).severity = "warning"
      ∨ (synErrorFinding ⟨"invalid syntax", some 1, some 1⟩).severity = "error")
    ∧ (synErrorFinding ⟨"invalid syntax", some 1, some 1⟩).rule_id ≠ ""
    ∧ (synErrorFinding ⟨"invalid syntax", some 1, some 1⟩).message ≠ "" :=
  claim_C8_findings_wellformed (.error ⟨"invalid syntax", some 1, some 1⟩) 0
    (synErrorFinding ⟨"invalid syntax", some 1, some 1⟩) (by decide)

/-- Claim C9: `function_naming` findings come only from non-async function
definitions failing the snake_case pattern; an async definition never
produces one, whatever its name (checked concretely on
`asyncBadNameTree`). -/
theorem claim_C9_async_function_naming (tree : Node) :
    (_check_naming_conventions tree []).filter (fun f => f.rule_id == "function_naming")
      = (walk tree).flatMap (fun n =>
          match n with
          | .functionDef name _ lineno _ =>
              if SNAKE_CASE_PATTERN name then []
              else [namingFinding name lineno "function_naming" "Função"]
          | _ => [])
    ∧ _check_naming_conventions asyncBadNameTree [] = [] := by
  constructor
  · rw [check_naming_eq, List.nil_append]
    unfold spec_naming_findings
    rw [List.filter_flatMap]
    congr 1
    funext n
    cases n <;> simp [spec_naming_at]
    case functionDef name body lineno endLineno =>
      by_cases hs : SNAKE_CASE_PATTERN name <;> simp [hs, namingFinding]
    case assign targets value lineno =>
      intro f target ht hft
      cases target <;> simp at hft
      rcases hft with ⟨-, -, rfl⟩
      simp [namingFinding]
  · decide

/-- Claim C10: `variable_naming` findings come only from bare-name targets
of plain assignment statements; names bound by `for` targets, `with`
items, comprehension targets, augmented or annotated assignments never
produce one (checked concretely on `nonAssignBindersTree`). -/
theorem claim_C10_variable_naming_only_assign (tree : Node) :
    (_check_naming_conventions tree []).filter (fun f => f.rule_id == "variable_naming")
      = (walk tree).flatMap (fun n =>
          match n with
          | .assign targets _ _ =>
              targets.flatMap (fun target =>
                match target with
                | .nameExpr id _ lineno =>
                    if startsWithUnderscore id || SNAKE_CASE_PATTERN id then []
                    else [namingFinding id lineno "variable_naming" "Variável"]
                | _ => [])
          | _ => [])
    ∧ _check_naming_conventions nonAssignBindersTree [] = [] := by
  constructor
  · rw [check_naming_eq, List.nil_append]
    unfold spec_naming_findings
    rw [List.filter_flatMap]
    congr 1
    funext n
    cases n <;> simp [spec_naming_at]
    case functionDef name body lineno endLineno =>
      by_cases hs : SNAKE_CASE_PATTERN name <;> simp [hs, namingFinding]
    case assign targets value lineno =>
      intro f target ht hft
      cases target <;> simp at hft
      rcases hft with ⟨-, -, rfl⟩
      simp [namingFinding]
  · decide

/-- Sanity check: scenario C of the specification.  `import math` unused,
a camel-case function without docstring assigning an unused variable and
calling `print`. -/
example :
    ((analyze (.ok (.module
      [ .importStmt [⟨"math", none⟩] 1,
        .functionDef "CamelCaseFunction"
          [ .assign [.nameExpr "unused_var" .store 4] (.constant (.intVal 10) 4) 4,
            .exprStmt (.call (.nameExpr "print" .load 5) [.constant (.strVal "hello") 5] 5 4) 5,
            .ret (some (.constant (.intVal 42) 6)) 6 ] 3 6 ])) 0).suggestions.map
        Finding.rule_id)
      = ["unused_import", "unused_variable", "function_naming", "missing_docstring",
         "print_statement"] := by decide

/-- Sanity check: scenario A.  `def foo(): return 1` yields exactly the
missing-docstring info. -/
example :
    ((analyze (.ok (.module
      [ .functionDef "foo" [.ret (some (.constant (.intVal 1) 2)) 2] 1 2 ])) 0).suggestions.map
        Finding.rule_id)
      = ["missing_docstring"] := by decide


end AdvisorCodeAnalyzer
